import Mathlib

/-!
Shallow embedding of `lib/spack/llnl/util/lock.py` (Spack's file-based
read/write lock) and proofs about the claims of its specification.

Modelling conventions:
* Time is measured in tenths of a second: the Python polling loop
  `while total_time < timeout: ...; total_time += 0.1` performs one flock
  attempt per tenth, so a budget of `timeout` tenths runs exactly `timeout`
  iterations when no attempt succeeds.
* The outcome of the i-th non-blocking `fcntl.flock` attempt is given by an
  oracle `env : Nat → Option Nat`: `none` means the OS grants the lock,
  `some e` means the call raises `IOError` with `errno = e`.
* Each operation returns the raised exception (if any), the state of the
  Lock instance at the moment the operation ends (Python mutations before a
  raise persist), and the list of OS-level requests it issued.
-/

namespace SpackLock

/-- `errno.EAGAIN` on Linux. -/
def EAGAIN : Nat := 11

/-- `errno.EACCES` on Linux. -/
def EACCES : Nat := 13

/-- `DEFAULT_TIMEOUT = 60` (line 33), in seconds. -/
def DEFAULT_TIMEOUT : Nat := 60

/-- The mode in which this Lock instance's file descriptor currently holds
the OS advisory lock. -/
inductive OSMode where
  | unheld
  | shared
  | exclusive
deriving DecidableEq, Repr

/-- Lock operation passed to `Lock._lock`: `fcntl.LOCK_SH` or `fcntl.LOCK_EX`. -/
inductive FlockOp where
  | sh
  | ex
deriving DecidableEq, Repr

/-- An OS-level request issued by the Lock code: a non-blocking flock
request of some mode, `flock(fd, LOCK_UN)`, or a write to the lock file. -/
inductive OSCall where
  | flockReq (op : FlockOp)
  | flockUn
  | fileWrite (s : String)
deriving DecidableEq, Repr

/-- Python exceptions the lock code can raise. -/
inductive PyExc where
  | ioError (e : Nat)
  | nameError
  | lockError (msg : String)
  | assertionError
deriving DecidableEq, Repr

/-- State of one `Lock` instance plus the lock file's content:
`_reads`, `_writes` (lines 73-74), the OS-lock mode held through `_fd`,
and the content of the file at `_file_path`. -/
structure LockSt where
  reads : Nat
  writes : Nat
  mode : OSMode
  content : String
deriving DecidableEq, Repr

/-- A fresh `Lock` on a file with content `c`: counters zero, OS lock unheld
(`__init__`, lines 70-74). -/
def initLock (c : String) : LockSt :=
  ⟨0, 0, OSMode.unheld, c⟩

/-- The ownership stamp written on exclusive acquisition (line 121):
`"pid = " + str(os.getpid()) + ", host = " + socket.getfqdn()`. -/
def stamp (pid : Nat) (host : String) : String :=
  "pid = " ++ toString pid ++ ", host = " ++ host

/-- The `except IOError` handler of `Lock._lock` (lines 123-127) evaluates
`error.errno == errno.EAGAIN or error.errno == EACCES`. `EACCES` is an
unbound name in lock.py (only the module `errno` is imported), so when the
first disjunct is false, evaluating the second raises `NameError`.
`.ok true` = retry (`pass`), `.ok false` = re-raise the original error
(line 127, unreachable), `.error` = exception raised by the condition. -/
def retryCheck (e : Nat) : Except PyExc Bool :=
  if e = EAGAIN then Except.ok true
  else Except.error PyExc.nameError

/-- Result of `Lock._lock`: exception (if raised), the acquired mode and new
file content when the flock request succeeded, and the OS calls issued. -/
structure LoopResult where
  exc : Option PyExc
  acquired : Option (OSMode × String)
  calls : List OSCall
deriving DecidableEq, Repr

/-- The polling loop of `Lock._lock` (lines 115-129). `attempt` is the index
of the next flock attempt in `env`; `t` is the remaining budget in tenths of
a second. When the budget is exhausted the loop exits and the function
returns normally with nothing acquired (`exc = none`, `acquired = none`):
the source raises no timeout error. On a successful `LOCK_EX` request the
lock file is overwritten with the stamp (lines 119-121); a successful
`LOCK_SH` request writes nothing. -/
def lockLoop (op : FlockOp) (pid : Nat) (host : String)
    (env : Nat → Option Nat) (content : String) :
    Nat → Nat → LoopResult
  | _, 0 => ⟨none, none, []⟩
  | attempt, t + 1 =>
    match env attempt with
    | none =>
      match op with
      | FlockOp.ex =>
        ⟨none, some (OSMode.exclusive, stamp pid host),
          [OSCall.flockReq FlockOp.ex, OSCall.fileWrite (stamp pid host)]⟩
      | FlockOp.sh =>
        ⟨none, some (OSMode.shared, content), [OSCall.flockReq FlockOp.sh]⟩
    | some e =>
      match retryCheck e with
      | Except.ok true =>
        let r := lockLoop op pid host env content (attempt + 1) t
        ⟨r.exc, r.acquired, OSCall.flockReq op :: r.calls⟩
      | Except.ok false => ⟨some (PyExc.ioError e), none, [OSCall.flockReq op]⟩
      | Except.error exc => ⟨some exc, none, [OSCall.flockReq op]⟩

/-- Result of one public Lock operation: the exception raised (if any), the
instance state when the operation ends, and the OS calls it issued. -/
structure OpResult where
  exc : Option PyExc
  state : LockSt
  calls : List OSCall
deriving DecidableEq, Repr

/-- `Lock.acquire_read` (lines 87-94): if `reads == 0 and writes == 0`, run
`_lock(LOCK_SH, timeout)`; then `reads += 1`. An exception from `_lock`
propagates before the increment; a silent timeout still increments. -/
def acquire_read (env : Nat → Option Nat) (timeout pid : Nat) (host : String)
    (s : LockSt) : OpResult :=
  if s.reads = 0 ∧ s.writes = 0 then
    let r := lockLoop FlockOp.sh pid host env s.content 0 timeout
    match r.exc with
    | some e => ⟨some e, s, r.calls⟩
    | none =>
      match r.acquired with
      | some (m, c) =>
        ⟨none, { s with mode := m, content := c, reads := s.reads + 1 }, r.calls⟩
      | none => ⟨none, { s with reads := s.reads + 1 }, r.calls⟩
  else ⟨none, { s with reads := s.reads + 1 }, []⟩

/-- `Lock.acquire_write` (lines 97-105): if `writes == 0` and `reads != 0`,
raise `LockError` before any OS call; if `writes == 0` and `reads == 0`, run
`_lock(LOCK_EX, timeout)`; then `writes += 1`. -/
def acquire_write (env : Nat → Option Nat) (timeout pid : Nat) (host : String)
    (s : LockSt) : OpResult :=
  if s.writes = 0 then
    if s.reads ≠ 0 then
      ⟨some (PyExc.lockError "Write lock after read lock illegal due to potential deadlock"),
        s, []⟩
    else
      let r := lockLoop FlockOp.ex pid host env s.content 0 timeout
      match r.exc with
      | some e => ⟨some e, s, r.calls⟩
      | none =>
        match r.acquired with
        | some (m, c) =>
          ⟨none, { s with mode := m, content := c, writes := s.writes + 1 }, r.calls⟩
        | none => ⟨none, { s with writes := s.writes + 1 }, r.calls⟩
  else ⟨none, { s with writes := s.writes + 1 }, []⟩

/-- `Lock.release_read` (lines 132-139): `assert self._reads > 0`; if
`reads == 1 and writes == 0`, `_unlock()` (flock LOCK_UN, line 157); then
`reads -= 1`. -/
def release_read (s : LockSt) : OpResult :=
  if s.reads > 0 then
    if s.reads = 1 ∧ s.writes = 0 then
      ⟨none, { s with mode := OSMode.unheld, reads := s.reads - 1 }, [OSCall.flockUn]⟩
    else ⟨none, { s with reads := s.reads - 1 }, []⟩
  else ⟨some PyExc.assertionError, s, []⟩

/-- `Lock.release_write` (lines 142-149): `assert self._writes > 0`; if
`writes == 1 and reads == 0`, `_unlock()`; then `writes -= 1`. -/
def release_write (s : LockSt) : OpResult :=
  if s.writes > 0 then
    if s.writes = 1 ∧ s.reads = 0 then
      ⟨none, { s with mode := OSMode.unheld, writes := s.writes - 1 }, [OSCall.flockUn]⟩
    else ⟨none, { s with writes := s.writes - 1 }, []⟩
  else ⟨some PyExc.assertionError, s, []⟩

/-- One of the four public mutating operations. -/
inductive Op where
  | aRead
  | aWrite
  | rRead
  | rWrite
deriving DecidableEq, Repr

/-- Apply one operation to a state. -/
def applyOp (env : Nat → Option Nat) (timeout pid : Nat) (host : String)
    (op : Op) (s : LockSt) : OpResult :=
  match op with
  | Op.aRead => acquire_read env timeout pid host s
  | Op.aWrite => acquire_write env timeout pid host s
  | Op.rRead => release_read s
  | Op.rWrite => release_write s

/-- Run a sequence of operations; the Bool records whether every call
returned without raising. -/
def runOps (env : Nat → Option Nat) (timeout pid : Nat) (host : String) :
    List Op → LockSt → LockSt × Bool
  | [], s => (s, true)
  | op :: rest, s =>
    let r := applyOp env timeout pid host op s
    let (s1, ok) := runOps env timeout pid host rest r.state
    (s1, r.exc.isNone && ok)

/-- The uncontended environment: every flock request is granted. -/
def envOk : Nat → Option Nat := fun _ => none

/-- The fully contended environment: every flock request fails with
`errno.EAGAIN` (resource temporarily unavailable). -/
def envBusy : Nat → Option Nat := fun _ => some EAGAIN

/-- An environment in which every flock request fails with `errno.EACCES`. -/
def envAcces : Nat → Option Nat := fun _ => some EACCES

/-- `_ReadLockContext` / `_WriteLockContext` (lines 35-64): a guard stores
the lock's timeout; `__enter__` acquires with exactly that timeout. -/
structure ReadLockContext where
  timeout : Nat
deriving DecidableEq, Repr

/-- See `ReadLockContext`. -/
structure WriteLockContext where
  timeout : Nat
deriving DecidableEq, Repr

/-- Default value of the `timeout` parameter of `_ReadLockContext.__init__`
(line 40): `DEFAULT_TIMEOUT`. -/
def readLockContextDefaultTimeout : Nat := DEFAULT_TIMEOUT

/-- Default value of the `timeout` parameter of `_WriteLockContext.__init__`
(line 56): `DEFAULT_TIMEOUT`. -/
def writeLockContextDefaultTimeout : Nat := DEFAULT_TIMEOUT

/-- Default value of the `timeout` parameter of `Lock.read_lock` (line 82). -/
def read_lock_default_timeout : Nat := DEFAULT_TIMEOUT

/-- Default value of the `timeout` parameter of `Lock.write_lock` (line 77). -/
def write_lock_default_timeout : Nat := DEFAULT_TIMEOUT

/-- `Lock.read_lock(timeout)` returns `_ReadLockContext(self, timeout)`. -/
def read_lock (timeout : Nat) : ReadLockContext := ⟨timeout⟩

/-- `Lock.write_lock(timeout)` returns `_WriteLockContext(self, timeout)`. -/
def write_lock (timeout : Nat) : WriteLockContext := ⟨timeout⟩

/-- `_ReadLockContext.__enter__` calls `self._lock.acquire_read(self._timeout)`. -/
def ReadLockContext.enter (ctx : ReadLockContext) (env : Nat → Option Nat)
    (pid : Nat) (host : String) (s : LockSt) : OpResult :=
  acquire_read env ctx.timeout pid host s

/-- `_WriteLockContext.__enter__` calls `self._lock.acquire_write(self._timeout)`. -/
def WriteLockContext.enter (ctx : WriteLockContext) (env : Nat → Option Nat)
    (pid : Nat) (host : String) (s : LockSt) : OpResult :=
  acquire_write env ctx.timeout pid host s

/-- The strongest relation between the counters and the OS-lock mode that
the code actually maintains in the uncontended setting: unheld exactly when
both counters are zero, exclusive whenever a write lock is counted, and
shared only when reads are counted with no writes. (The converse of the
last clause fails: after `release_write` with outstanding reads, the OS
lock stays exclusive — the "masquerading" of lines 154-155.) -/
def Inv (s : LockSt) : Prop :=
  (s.mode = OSMode.unheld ↔ s.reads = 0 ∧ s.writes = 0) ∧
  (0 < s.writes → s.mode = OSMode.exclusive) ∧
  (s.mode = OSMode.shared → 0 < s.reads ∧ s.writes = 0)

lemma lockLoop_busy (op : FlockOp) (pid : Nat) (host : String)
    (env : Nat → Option Nat) (c : String) :
    ∀ (t a : Nat), (∀ i, i < t → env (a + i) = some EAGAIN) →
      lockLoop op pid host env c a t =
        ⟨none, none, List.replicate t (OSCall.flockReq op)⟩ := by
  intro t
  induction t with
  | zero => intro a _; rfl
  | succ t ih =>
    intro a h
    have h0 : env a = some EAGAIN := by
      have := h 0 (Nat.succ_pos t); simpa using this
    have hrest : ∀ i, i < t → env (a + 1 + i) = some EAGAIN := by
      intro i hi
      have := h (i + 1) (by omega)
      rw [show a + 1 + i = a + (i + 1) by omega]
      exact this
    simp only [lockLoop, h0, retryCheck, if_pos rfl, if_true, ih (a + 1) hrest,
      List.replicate_succ]

lemma lockLoop_envOk_sh (pid : Nat) (host : String) (c : String)
    (a t : Nat) (ht : 1 ≤ t) :
    lockLoop FlockOp.sh pid host envOk c a t =
      ⟨none, some (OSMode.shared, c), [OSCall.flockReq FlockOp.sh]⟩ := by
  cases t with
  | zero => omega
  | succ t => rfl

lemma lockLoop_envOk_ex (pid : Nat) (host : String) (c : String)
    (a t : Nat) (ht : 1 ≤ t) :
    lockLoop FlockOp.ex pid host envOk c a t =
      ⟨none, some (OSMode.exclusive, stamp pid host),
        [OSCall.flockReq FlockOp.ex, OSCall.fileWrite (stamp pid host)]⟩ := by
  cases t with
  | zero => omega
  | succ t => rfl

lemma lockLoop_ex_acquired (pid : Nat) (host : String) (env : Nat → Option Nat)
    (c : String) :
    ∀ (t a : Nat) (m : OSMode) (c2 : String),
      (lockLoop FlockOp.ex pid host env c a t).acquired = some (m, c2) →
      m = OSMode.exclusive ∧ c2 = stamp pid host ∧
        OSCall.fileWrite (stamp pid host) ∈ (lockLoop FlockOp.ex pid host env c a t).calls := by
  intro t
  induction t with
  | zero => intro a m c2 h; exact absurd h (by simp [lockLoop])
  | succ t ih =>
    intro a m c2 h
    cases henv : env a with
    | none =>
      simp only [lockLoop, henv] at h ⊢
      simp only [Option.some.injEq, Prod.mk.injEq] at h
      refine ⟨h.1.symm, h.2.symm, ?_⟩
      simp
    | some e =>
      by_cases he : e = EAGAIN
      · subst he
        simp only [lockLoop, henv, retryCheck, if_pos rfl, if_true] at h ⊢
        obtain ⟨hm, hc, hmem⟩ := ih (a + 1) m c2 h
        exact ⟨hm, hc, List.mem_cons_of_mem _ hmem⟩
      · simp only [lockLoop, henv, retryCheck, if_neg he] at h
        exact Option.noConfusion h

lemma lockLoop_sh_acquired (pid : Nat) (host : String) (env : Nat → Option Nat)
    (c : String) :
    ∀ (t a : Nat) (m : OSMode) (c2 : String),
      (lockLoop FlockOp.sh pid host env c a t).acquired = some (m, c2) →
      m = OSMode.shared ∧ c2 = c := by
  intro t
  induction t with
  | zero => intro a m c2 h; exact absurd h (by simp [lockLoop])
  | succ t ih =>
    intro a m c2 h
    cases henv : env a with
    | none =>
      simp only [lockLoop, henv] at h
      simp only [Option.some.injEq, Prod.mk.injEq] at h
      exact ⟨h.1.symm, h.2.symm⟩
    | some e =>
      by_cases he : e = EAGAIN
      · subst he
        simp only [lockLoop, henv, retryCheck, if_pos rfl, if_true] at h
        exact ih (a + 1) m c2 h
      · simp only [lockLoop, henv, retryCheck, if_neg he] at h
        exact Option.noConfusion h

lemma lockLoop_sh_calls (pid : Nat) (host : String) (env : Nat → Option Nat)
    (c : String) :
    ∀ (t a : Nat) (e : OSCall),
      e ∈ (lockLoop FlockOp.sh pid host env c a t).calls →
      e = OSCall.flockReq FlockOp.sh := by
  intro t
  induction t with
  | zero => intro a e h; exact absurd h (by simp [lockLoop])
  | succ t ih =>
    intro a e h
    cases henv : env a with
    | none =>
      simp only [lockLoop, henv] at h
      simpa using h
    | some er =>
      by_cases he : er = EAGAIN
      · subst he
        simp only [lockLoop, henv, retryCheck, if_pos rfl, if_true] at h
        rcases List.mem_cons.mp h with h1 | h1
        · exact h1
        · exact ih (a + 1) e h1
      · simp only [lockLoop, henv, retryCheck, if_neg he] at h
        simpa using h

lemma acquire_read_fresh_envOk (timeout pid : Nat) (host : String) (s : LockSt)
    (ht : 1 ≤ timeout) (h0 : s.reads = 0 ∧ s.writes = 0) :
    acquire_read envOk timeout pid host s =
      ⟨none, { s with mode := OSMode.shared, reads := s.reads + 1 },
        [OSCall.flockReq FlockOp.sh]⟩ := by
  unfold acquire_read
  rw [if_pos h0, lockLoop_envOk_sh pid host s.content 0 timeout ht]

lemma acquire_read_held (env : Nat → Option Nat) (timeout pid : Nat)
    (host : String) (s : LockSt) (h : ¬(s.reads = 0 ∧ s.writes = 0)) :
    acquire_read env timeout pid host s =
      ⟨none, { s with reads := s.reads + 1 }, []⟩ := by
  unfold acquire_read
  rw [if_neg h]

lemma acquire_write_fresh_envOk (timeout pid : Nat) (host : String) (s : LockSt)
    (ht : 1 ≤ timeout) (hw : s.writes = 0) (hr : s.reads = 0) :
    acquire_write envOk timeout pid host s =
      ⟨none, { s with mode := OSMode.exclusive, content := stamp pid host, writes := s.writes + 1 },
        [OSCall.flockReq FlockOp.ex, OSCall.fileWrite (stamp pid host)]⟩ := by
  unfold acquire_write
  rw [if_pos hw, if_neg (by simp [hr]), lockLoop_envOk_ex pid host s.content 0 timeout ht]

lemma acquire_write_upgrade (env : Nat → Option Nat) (timeout pid : Nat)
    (host : String) (s : LockSt) (hw : s.writes = 0) (hr : s.reads ≠ 0) :
    acquire_write env timeout pid host s =
      ⟨some (PyExc.lockError "Write lock after read lock illegal due to potential deadlock"),
        s, []⟩ := by
  unfold acquire_write
  rw [if_pos hw, if_pos hr]

lemma acquire_write_recursive (env : Nat → Option Nat) (timeout pid : Nat)
    (host : String) (s : LockSt) (hw : s.writes ≠ 0) :
    acquire_write env timeout pid host s =
      ⟨none, { s with writes := s.writes + 1 }, []⟩ := by
  unfold acquire_write
  rw [if_neg hw]

lemma release_read_last (s : LockSt) (h : s.reads = 1 ∧ s.writes = 0) :
    release_read s =
      ⟨none, { s with mode := OSMode.unheld, reads := s.reads - 1 },
        [OSCall.flockUn]⟩ := by
  unfold release_read
  rw [if_pos (by omega : 0 < s.reads), if_pos h]

lemma release_read_inner (s : LockSt) (h0 : 0 < s.reads)
    (h : ¬(s.reads = 1 ∧ s.writes = 0)) :
    release_read s = ⟨none, { s with reads := s.reads - 1 }, []⟩ := by
  unfold release_read
  rw [if_pos h0, if_neg h]

lemma release_read_empty (s : LockSt) (h : s.reads = 0) :
    release_read s = ⟨some PyExc.assertionError, s, []⟩ := by
  unfold release_read
  rw [if_neg (by omega)]

lemma release_write_last (s : LockSt) (h : s.writes = 1 ∧ s.reads = 0) :
    release_write s =
      ⟨none, { s with mode := OSMode.unheld, writes := s.writes - 1 },
        [OSCall.flockUn]⟩ := by
  unfold release_write
  rw [if_pos (by omega : 0 < s.writes), if_pos h]

lemma release_write_inner (s : LockSt) (h0 : 0 < s.writes)
    (h : ¬(s.writes = 1 ∧ s.reads = 0)) :
    release_write s = ⟨none, { s with writes := s.writes - 1 }, []⟩ := by
  unfold release_write
  rw [if_pos h0, if_neg h]

lemma release_write_empty (s : LockSt) (h : s.writes = 0) :
    release_write s = ⟨some PyExc.assertionError, s, []⟩ := by
  unfold release_write
  rw [if_neg (by omega)]

lemma acquire_read_content (env : Nat → Option Nat) (timeout pid : Nat)
    (host : String) (s : LockSt) :
    (acquire_read env timeout pid host s).state.content = s.content ∧
      ∀ str, OSCall.fileWrite str ∉ (acquire_read env timeout pid host s).calls := by
  unfold acquire_read
  by_cases hc : s.reads = 0 ∧ s.writes = 0
  · rw [if_pos hc]
    have hnw : ∀ str,
        OSCall.fileWrite str ∉ (lockLoop FlockOp.sh pid host env s.content 0 timeout).calls := by
      intro str hmem
      have := lockLoop_sh_calls pid host env s.content timeout 0 _ hmem
      exact OSCall.noConfusion this
    cases hexc : (lockLoop FlockOp.sh pid host env s.content 0 timeout).exc with
    | some e => simp only [hexc]; exact ⟨by simp, hnw⟩
    | none =>
      cases hacq : (lockLoop FlockOp.sh pid host env s.content 0 timeout).acquired with
      | none => simp only [hexc, hacq]; exact ⟨by simp, hnw⟩
      | some mc =>
        obtain ⟨m, c2⟩ := mc
        have := lockLoop_sh_acquired pid host env s.content timeout 0 m c2 hacq
        simp only [hexc, hacq]
        exact ⟨this.2, hnw⟩
  · rw [if_neg hc]
    exact ⟨rfl, by simp⟩

lemma inv_mk (r w : Nat) (m : OSMode) (c : String) :
    Inv ⟨r, w, m, c⟩ ↔
      ((m = OSMode.unheld ↔ r = 0 ∧ w = 0) ∧ (0 < w → m = OSMode.exclusive) ∧
        (m = OSMode.shared → 0 < r ∧ w = 0)) := Iff.rfl

lemma inv_applyOp (timeout pid : Nat) (host : String) (ht : 1 ≤ timeout)
    (op : Op) (s : LockSt) (h : Inv s) :
    Inv (applyOp envOk timeout pid host op s).state := by
  obtain ⟨h1, h2, h3⟩ := h
  cases op with
  | aRead =>
    by_cases hc : s.reads = 0 ∧ s.writes = 0
    · rw [show applyOp envOk timeout pid host Op.aRead s
          = acquire_read envOk timeout pid host s from rfl,
        acquire_read_fresh_envOk timeout pid host s ht hc]
      show Inv (⟨s.reads + 1, s.writes, OSMode.shared, s.content⟩ : LockSt)
      rw [inv_mk]
      refine ⟨⟨fun hm => OSMode.noConfusion hm, fun hx => absurd hx.1 (by omega)⟩,
        fun hx => absurd hx (by simp [hc.2]), fun _ => ⟨by omega, hc.2⟩⟩
    · rw [show applyOp envOk timeout pid host Op.aRead s
          = acquire_read envOk timeout pid host s from rfl,
        acquire_read_held envOk timeout pid host s hc]
      show Inv (⟨s.reads + 1, s.writes, s.mode, s.content⟩ : LockSt)
      rw [inv_mk]
      refine ⟨⟨fun hm => absurd (h1.mp hm) hc, fun hx => absurd hx.1 (by omega)⟩,
        h2, fun hm => ⟨Nat.succ_pos _, (h3 hm).2⟩⟩
  | aWrite =>
    by_cases hw : s.writes = 0
    · by_cases hr : s.reads = 0
      · rw [show applyOp envOk timeout pid host Op.aWrite s
            = acquire_write envOk timeout pid host s from rfl,
          acquire_write_fresh_envOk timeout pid host s ht hw hr]
        show Inv (⟨s.reads, s.writes + 1, OSMode.exclusive, stamp pid host⟩ : LockSt)
        rw [inv_mk]
        exact ⟨⟨fun hm => OSMode.noConfusion hm, fun hx => absurd hx.2 (by omega)⟩,
          fun _ => rfl, fun hm => OSMode.noConfusion hm⟩
      · rw [show applyOp envOk timeout pid host Op.aWrite s
            = acquire_write envOk timeout pid host s from rfl,
          acquire_write_upgrade envOk timeout pid host s hw hr]
        exact ⟨h1, h2, h3⟩
    · rw [show applyOp envOk timeout pid host Op.aWrite s
          = acquire_write envOk timeout pid host s from rfl,
        acquire_write_recursive envOk timeout pid host s hw]
      have hex : s.mode = OSMode.exclusive := h2 (by omega)
      show Inv (⟨s.reads, s.writes + 1, s.mode, s.content⟩ : LockSt)
      rw [inv_mk, hex]
      exact ⟨⟨fun hm => OSMode.noConfusion hm, fun hx => absurd hx.2 (by omega)⟩,
        fun _ => rfl, fun hm => OSMode.noConfusion hm⟩
  | rRead =>
    by_cases h0 : s.reads = 0
    · rw [show applyOp envOk timeout pid host Op.rRead s = release_read s from rfl,
        release_read_empty s h0]
      exact ⟨h1, h2, h3⟩
    · by_cases hlast : s.reads = 1 ∧ s.writes = 0
      · rw [show applyOp envOk timeout pid host Op.rRead s = release_read s from rfl,
          release_read_last s hlast]
        show Inv (⟨s.reads - 1, s.writes, OSMode.unheld, s.content⟩ : LockSt)
        rw [inv_mk]
        refine ⟨⟨fun _ => ⟨by simp [hlast.1], hlast.2⟩, fun _ => rfl⟩,
          fun hx => absurd hx (by simp [hlast.2]), fun hm => OSMode.noConfusion hm⟩
      · rw [show applyOp envOk timeout pid host Op.rRead s = release_read s from rfl,
          release_read_inner s (by omega) hlast]
        show Inv (⟨s.reads - 1, s.writes, s.mode, s.content⟩ : LockSt)
        rw [inv_mk]
        have hcases : ¬(s.reads - 1 = 0 ∧ s.writes = 0) := by omega
        refine ⟨⟨fun hm => absurd (h1.mp hm) (by omega),
          fun hx => (hcases hx).elim⟩, h2, ?_⟩
        intro hm
        obtain ⟨hr, hw⟩ := h3 hm
        have : s.reads ≠ 1 := fun hx => hlast ⟨hx, hw⟩
        exact ⟨by omega, hw⟩
  | rWrite =>
    by_cases h0 : s.writes = 0
    · rw [show applyOp envOk timeout pid host Op.rWrite s = release_write s from rfl,
        release_write_empty s h0]
      exact ⟨h1, h2, h3⟩
    · by_cases hlast : s.writes = 1 ∧ s.reads = 0
      · rw [show applyOp envOk timeout pid host Op.rWrite s = release_write s from rfl,
          release_write_last s hlast]
        show Inv (⟨s.reads, s.writes - 1, OSMode.unheld, s.content⟩ : LockSt)
        rw [inv_mk]
        refine ⟨⟨fun _ => ⟨hlast.2, by simp [hlast.1]⟩, fun _ => rfl⟩,
          fun hx => absurd hx (by simp [hlast.1]), fun hm => OSMode.noConfusion hm⟩
      · rw [show applyOp envOk timeout pid host Op.rWrite s = release_write s from rfl,
          release_write_inner s (by omega) hlast]
        have hex : s.mode = OSMode.exclusive := h2 (by omega)
        show Inv (⟨s.reads, s.writes - 1, s.mode, s.content⟩ : LockSt)
        rw [inv_mk, hex]
        have hcases : ¬(s.reads = 0 ∧ s.writes - 1 = 0) := by
          intro hx
          exact hlast ⟨by omega, hx.1⟩
        exact ⟨⟨fun hm => OSMode.noConfusion hm, fun hx => (hcases hx).elim⟩,
          fun _ => rfl, fun hm => OSMode.noConfusion hm⟩

lemma inv_runOps (timeout pid : Nat) (host : String) (ht : 1 ≤ timeout) :
    ∀ (ops : List Op) (s : LockSt), Inv s →
      Inv (runOps envOk timeout pid host ops s).1 := by
  intro ops
  induction ops with
  | nil => intro s h; exact h
  | cons op rest ih =>
    intro s h
    exact ih _ (inv_applyOp timeout pid host ht op s h)

lemma runOps_cons (env : Nat → Option Nat) (timeout pid : Nat) (host : String)
    (op : Op) (rest : List Op) (s : LockSt) :
    runOps env timeout pid host (op :: rest) s =
      ((runOps env timeout pid host rest (applyOp env timeout pid host op s).state).1,
        (applyOp env timeout pid host op s).exc.isNone &&
          (runOps env timeout pid host rest (applyOp env timeout pid host op s).state).2) :=
  rfl

lemma runOps_append (env : Nat → Option Nat) (timeout pid : Nat) (host : String) :
    ∀ (l1 l2 : List Op) (s : LockSt),
      runOps env timeout pid host (l1 ++ l2) s =
        ((runOps env timeout pid host l2 (runOps env timeout pid host l1 s).1).1,
          (runOps env timeout pid host l1 s).2 &&
            (runOps env timeout pid host l2 (runOps env timeout pid host l1 s).1).2) := by
  intro l1
  induction l1 with
  | nil => intro l2 s; simp [runOps]
  | cons op rest ih =>
    intro l2 s
    rw [List.cons_append, runOps_cons, runOps_cons,
      ih l2 (applyOp env timeout pid host op s).state, Bool.and_assoc]

lemma runOps_replicate_aRead (timeout pid : Nat) (host c : String) :
    ∀ (n k : Nat),
      runOps envOk timeout pid host (List.replicate n Op.aRead)
          ⟨k + 1, 0, OSMode.shared, c⟩ =
        (⟨k + 1 + n, 0, OSMode.shared, c⟩, true) := by
  intro n
  induction n with
  | zero => intro k; rfl
  | succ n ih =>
    intro k
    rw [List.replicate_succ, runOps_cons,
      show applyOp envOk timeout pid host Op.aRead (⟨k + 1, 0, OSMode.shared, c⟩ : LockSt)
        = acquire_read envOk timeout pid host ⟨k + 1, 0, OSMode.shared, c⟩ from rfl,
      acquire_read_held envOk timeout pid host _ (by simp)]
    rw [show ({ (⟨k + 1, 0, OSMode.shared, c⟩ : LockSt) with reads := k + 1 + 1 } : LockSt)
        = (⟨k + 1 + 1, 0, OSMode.shared, c⟩ : LockSt) from rfl]
    rw [ih (k + 1)]
    rw [show k + 1 + 1 + n = k + 1 + (n + 1) by omega]
    rfl

lemma runOps_replicate_rRead (timeout pid : Nat) (host c : String) :
    ∀ (k : Nat),
      runOps envOk timeout pid host (List.replicate (k + 1) Op.rRead)
          ⟨k + 1, 0, OSMode.shared, c⟩ =
        (⟨0, 0, OSMode.unheld, c⟩, true) := by
  intro k
  induction k with
  | zero =>
    rw [List.replicate_succ, runOps_cons,
      show applyOp envOk timeout pid host Op.rRead (⟨1, 0, OSMode.shared, c⟩ : LockSt)
        = release_read ⟨1, 0, OSMode.shared, c⟩ from rfl,
      release_read_last _ (by exact ⟨rfl, rfl⟩)]
    rfl
  | succ k ih =>
    rw [List.replicate_succ, runOps_cons,
      show applyOp envOk timeout pid host Op.rRead (⟨k + 2, 0, OSMode.shared, c⟩ : LockSt)
        = release_read ⟨k + 2, 0, OSMode.shared, c⟩ from rfl,
      release_read_inner _ (by exact Nat.succ_pos _) (by simp)]
    rw [show ({ (⟨k + 2, 0, OSMode.shared, c⟩ : LockSt) with reads := k + 2 - 1 } : LockSt)
        = (⟨k + 1, 0, OSMode.shared, c⟩ : LockSt) from rfl]
    rw [ih]
    rfl

lemma runOps_replicate_aWrite (timeout pid : Nat) (host c : String) :
    ∀ (n k : Nat),
      runOps envOk timeout pid host (List.replicate n Op.aWrite)
          ⟨0, k + 1, OSMode.exclusive, c⟩ =
        (⟨0, k + 1 + n, OSMode.exclusive, c⟩, true) := by
  intro n
  induction n with
  | zero => intro k; rfl
  | succ n ih =>
    intro k
    rw [List.replicate_succ, runOps_cons,
      show applyOp envOk timeout pid host Op.aWrite (⟨0, k + 1, OSMode.exclusive, c⟩ : LockSt)
        = acquire_write envOk timeout pid host ⟨0, k + 1, OSMode.exclusive, c⟩ from rfl,
      acquire_write_recursive envOk timeout pid host _ (by simp)]
    rw [show ({ (⟨0, k + 1, OSMode.exclusive, c⟩ : LockSt) with writes := k + 1 + 1 } : LockSt)
        = (⟨0, k + 1 + 1, OSMode.exclusive, c⟩ : LockSt) from rfl]
    rw [ih (k + 1)]
    rw [show k + 1 + 1 + n = k + 1 + (n + 1) by omega]
    rfl

lemma runOps_replicate_rWrite (timeout pid : Nat) (host c : String) :
    ∀ (k : Nat),
      runOps envOk timeout pid host (List.replicate (k + 1) Op.rWrite)
          ⟨0, k + 1, OSMode.exclusive, c⟩ =
        (⟨0, 0, OSMode.unheld, c⟩, true) := by
  intro k
  induction k with
  | zero =>
    rw [List.replicate_succ, runOps_cons,
      show applyOp envOk timeout pid host Op.rWrite (⟨0, 1, OSMode.exclusive, c⟩ : LockSt)
        = release_write ⟨0, 1, OSMode.exclusive, c⟩ from rfl,
      release_write_last _ (by exact ⟨rfl, rfl⟩)]
    rfl
  | succ k ih =>
    rw [List.replicate_succ, runOps_cons,
      show applyOp envOk timeout pid host Op.rWrite (⟨0, k + 2, OSMode.exclusive, c⟩ : LockSt)
        = release_write ⟨0, k + 2, OSMode.exclusive, c⟩ from rfl,
      release_write_inner _ (by exact Nat.succ_pos _) (by simp)]
    rw [show ({ (⟨0, k + 2, OSMode.exclusive, c⟩ : LockSt) with writes := k + 2 - 1 } : LockSt)
        = (⟨0, k + 1, OSMode.exclusive, c⟩ : LockSt) from rfl]
    rw [ih]
    rfl

/-- C1: the claim says a call to acquire_read or acquire_write whose polling
loop exhausts its time budget must report a timeout failure. The code does
not: with every flock attempt failing EAGAIN (lock held elsewhere), both
acquisitions return normally (`exc = none`) with the OS lock never acquired
and the counter incremented — the silent-return defect of `Lock._lock`. -/
theorem C1_silent_timeout_return :
    ((acquire_read envBusy 5 42 "h" (initLock "orig")).exc = none ∧
      (acquire_read envBusy 5 42 "h" (initLock "orig")).state.mode = OSMode.unheld ∧
      (acquire_read envBusy 5 42 "h" (initLock "orig")).state.reads = 1) ∧
    ((acquire_write envBusy 5 42 "h" (initLock "orig")).exc = none ∧
      (acquire_write envBusy 5 42 "h" (initLock "orig")).state.mode = OSMode.unheld ∧
      (acquire_write envBusy 5 42 "h" (initLock "orig")).state.writes = 1) := by
  decide

/-- C2 counterexample: the state reached from UNLOCKED by
acquire_write; acquire_read; release_write has reads = 1, writes = 0, yet
the OS lock is held in exclusive mode, not shared — refuting both "shared
mode iff reads > 0 and writes == 0" and "exclusive mode iff writes > 0". -/
theorem C2_counterexample :
    0 < ((runOps envOk 1 42 "h" [Op.aWrite, Op.aRead, Op.rWrite] (initLock "f")).1).reads ∧
    ((runOps envOk 1 42 "h" [Op.aWrite, Op.aRead, Op.rWrite] (initLock "f")).1).writes = 0 ∧
    ((runOps envOk 1 42 "h" [Op.aWrite, Op.aRead, Op.rWrite] (initLock "f")).1).mode
      = OSMode.exclusive ∧
    ((runOps envOk 1 42 "h" [Op.aWrite, Op.aRead, Op.rWrite] (initLock "f")).1).mode
      ≠ OSMode.shared := by
  decide

/-- C2 (amended): in every state reachable from the initial state by any
sequence of acquire/release calls, when every OS lock request is granted
within the timeout, the OS lock is unheld iff both counters are zero, held
in exclusive mode whenever writes > 0, and held in shared mode only if
reads > 0 and writes == 0 (the converse fails: after release_write with
reads outstanding the OS lock stays exclusive). -/
theorem C2_reachable_lock_mode (timeout pid : Nat) (host c : String)
    (ht : 1 ≤ timeout) (ops : List Op) :
    ((runOps envOk timeout pid host ops (initLock c)).1.mode = OSMode.unheld ↔
      (runOps envOk timeout pid host ops (initLock c)).1.reads = 0 ∧
        (runOps envOk timeout pid host ops (initLock c)).1.writes = 0) ∧
    (0 < (runOps envOk timeout pid host ops (initLock c)).1.writes →
      (runOps envOk timeout pid host ops (initLock c)).1.mode = OSMode.exclusive) ∧
    ((runOps envOk timeout pid host ops (initLock c)).1.mode = OSMode.shared →
      0 < (runOps envOk timeout pid host ops (initLock c)).1.reads ∧
        (runOps envOk timeout pid host ops (initLock c)).1.writes = 0) :=
  inv_runOps timeout pid host ht ops (initLock c)
    ⟨⟨fun _ => ⟨rfl, rfl⟩, fun _ => rfl⟩,
      fun hx => absurd hx (Nat.lt_irrefl 0),
      fun hm => OSMode.noConfusion hm⟩

/-- C2 witness: the amended invariant evaluated after one acquire_read. -/
theorem C2_witness :
    1 ≤ 1 ∧
    (((runOps envOk 1 42 "h" [Op.aRead] (initLock "f")).1.mode = OSMode.unheld ↔
      (runOps envOk 1 42 "h" [Op.aRead] (initLock "f")).1.reads = 0 ∧
        (runOps envOk 1 42 "h" [Op.aRead] (initLock "f")).1.writes = 0) ∧
    (0 < (runOps envOk 1 42 "h" [Op.aRead] (initLock "f")).1.writes →
      (runOps envOk 1 42 "h" [Op.aRead] (initLock "f")).1.mode = OSMode.exclusive) ∧
    ((runOps envOk 1 42 "h" [Op.aRead] (initLock "f")).1.mode = OSMode.shared →
      0 < (runOps envOk 1 42 "h" [Op.aRead] (initLock "f")).1.reads ∧
        (runOps envOk 1 42 "h" [Op.aRead] (initLock "f")).1.writes = 0)) :=
  ⟨Nat.le_refl 1, C2_reachable_lock_mode 1 42 "h" "f" (Nat.le_refl 1) [Op.aRead]⟩

/-- C3 counterexample: in the reachable state after acquire_write then
acquire_read (reads = 1, writes = 1), a further acquire_write succeeds and
leaves writes = 2 — so "for every state with reads > 0, acquire_write fails
and leaves writes == 0" is false as stated. -/
theorem C3_counterexample :
    0 < ((runOps envOk 1 42 "h" [Op.aWrite, Op.aRead] (initLock "f")).1).reads ∧
    (acquire_write envOk 1 42 "h"
      (runOps envOk 1 42 "h" [Op.aWrite, Op.aRead] (initLock "f")).1).exc = none ∧
    (acquire_write envOk 1 42 "h"
      (runOps envOk 1 42 "h" [Op.aWrite, Op.aRead] (initLock "f")).1).state.writes = 2 := by
  decide

/-- C3 (amended): for every state with reads > 0 AND writes == 0, any call
to acquire_write fails with the upgrade LockError and leaves writes == 0. -/
theorem C3_upgrade_always_fails (env : Nat → Option Nat) (timeout pid : Nat)
    (host : String) (s : LockSt) (hr : 0 < s.reads) (hw : s.writes = 0) :
    (acquire_write env timeout pid host s).exc =
      some (PyExc.lockError "Write lock after read lock illegal due to potential deadlock") ∧
    (acquire_write env timeout pid host s).state.writes = 0 := by
  rw [acquire_write_upgrade env timeout pid host s hw (by omega)]
  exact ⟨rfl, hw⟩

/-- C3 witness: the amended claim evaluated at reads = 1, writes = 0. -/
theorem C3_witness :
    (0 < (1 : Nat) ∧ (0 : Nat) = 0) ∧
    ((acquire_write envOk 1 42 "h" ⟨1, 0, OSMode.shared, "f"⟩).exc =
      some (PyExc.lockError "Write lock after read lock illegal due to potential deadlock") ∧
    (acquire_write envOk 1 42 "h" ⟨1, 0, OSMode.shared, "f"⟩).state.writes = 0) :=
  ⟨⟨Nat.one_pos, rfl⟩,
    C3_upgrade_always_fails envOk 1 42 "h" ⟨1, 0, OSMode.shared, "f"⟩ Nat.one_pos rfl⟩

/-- C4: acquire_write called with writes == 0 and reads != 0 raises the
upgrade error immediately, issues no OS-level request, and leaves the whole
instance state (both counters, OS-lock mode, file content) unchanged. -/
theorem C4_upgrade_error_atomic (env : Nat → Option Nat) (timeout pid : Nat)
    (host : String) (s : LockSt) (hw : s.writes = 0) (hr : s.reads ≠ 0) :
    acquire_write env timeout pid host s =
      ⟨some (PyExc.lockError "Write lock after read lock illegal due to potential deadlock"),
        s, []⟩ :=
  acquire_write_upgrade env timeout pid host s hw hr

/-- C4 witness: the atomic failure evaluated at reads = 2, writes = 0. -/
theorem C4_witness :
    ((⟨2, 0, OSMode.shared, "f"⟩ : LockSt).writes = 0 ∧
      (⟨2, 0, OSMode.shared, "f"⟩ : LockSt).reads ≠ 0) ∧
    acquire_write envOk 1 42 "h" ⟨2, 0, OSMode.shared, "f"⟩ =
      ⟨some (PyExc.lockError "Write lock after read lock illegal due to potential deadlock"),
        ⟨2, 0, OSMode.shared, "f"⟩, []⟩ :=
  ⟨⟨rfl, by decide⟩, C4_upgrade_error_atomic envOk 1 42 "h" ⟨2, 0, OSMode.shared, "f"⟩ rfl (by decide)⟩

/-- C5: for every n ≥ 1, starting from UNLOCKED with every OS request
granted, n acquire_read calls followed by n release_read calls raise no
error and return the instance to UNLOCKED with the OS lock unheld (state
exactly the initial one); n acquire_write calls followed by n release_write
calls likewise end with both counters zero and the OS lock unheld (the file
content now holds the ownership stamp). -/
theorem C5_recursion_roundtrip (n timeout pid : Nat) (host c : String)
    (hn : 1 ≤ n) (ht : 1 ≤ timeout) :
    runOps envOk timeout pid host
        (List.replicate n Op.aRead ++ List.replicate n Op.rRead) (initLock c) =
      (initLock c, true) ∧
    runOps envOk timeout pid host
        (List.replicate n Op.aWrite ++ List.replicate n Op.rWrite) (initLock c) =
      (⟨0, 0, OSMode.unheld, stamp pid host⟩, true) := by
  obtain ⟨m, rfl⟩ : ∃ m, n = m + 1 := ⟨n - 1, by omega⟩
  constructor
  · have hread : runOps envOk timeout pid host (List.replicate (m + 1) Op.aRead) (initLock c)
        = (⟨m + 1, 0, OSMode.shared, c⟩, true) := by
      rw [List.replicate_succ, runOps_cons,
        show applyOp envOk timeout pid host Op.aRead (initLock c)
          = acquire_read envOk timeout pid host (initLock c) from rfl,
        acquire_read_fresh_envOk timeout pid host (initLock c) ht ⟨rfl, rfl⟩,
        show ({ initLock c with mode := OSMode.shared, reads := (initLock c).reads + 1 } : LockSt)
          = (⟨0 + 1, 0, OSMode.shared, c⟩ : LockSt) from rfl,
        runOps_replicate_aRead timeout pid host c m 0,
        show 0 + 1 + m = m + 1 by omega]
      rfl
    rw [runOps_append, hread,
      show (((⟨m + 1, 0, OSMode.shared, c⟩ : LockSt), true) : LockSt × Bool).1
        = (⟨m + 1, 0, OSMode.shared, c⟩ : LockSt) from rfl,
      runOps_replicate_rRead timeout pid host c m]
    rfl
  · have hwrite : runOps envOk timeout pid host (List.replicate (m + 1) Op.aWrite) (initLock c)
        = (⟨0, m + 1, OSMode.exclusive, stamp pid host⟩, true) := by
      rw [List.replicate_succ, runOps_cons,
        show applyOp envOk timeout pid host Op.aWrite (initLock c)
          = acquire_write envOk timeout pid host (initLock c) from rfl,
        acquire_write_fresh_envOk timeout pid host (initLock c) ht rfl rfl,
        show ({ initLock c with mode := OSMode.exclusive, content := stamp pid host, writes := (initLock c).writes + 1 } : LockSt)
          = (⟨0, 0 + 1, OSMode.exclusive, stamp pid host⟩ : LockSt) from rfl,
        runOps_replicate_aWrite timeout pid host (stamp pid host) m 0,
        show 0 + 1 + m = m + 1 by omega]
      rfl
    rw [runOps_append, hwrite,
      show (((⟨0, m + 1, OSMode.exclusive, stamp pid host⟩ : LockSt), true) : LockSt × Bool).1
        = (⟨0, m + 1, OSMode.exclusive, stamp pid host⟩ : LockSt) from rfl,
      runOps_replicate_rWrite timeout pid host (stamp pid host) m]
    rfl

/-- C5 witness: the double-acquire round trip evaluated at n = 2. -/
theorem C5_witness :
    (1 ≤ 2 ∧ 1 ≤ 1) ∧
    (runOps envOk 1 7 "h"
        (List.replicate 2 Op.aRead ++ List.replicate 2 Op.rRead) (initLock "f") =
      (initLock "f", true) ∧
    runOps envOk 1 7 "h"
        (List.replicate 2 Op.aWrite ++ List.replicate 2 Op.rWrite) (initLock "f") =
      (⟨0, 0, OSMode.unheld, stamp 7 "h"⟩, true)) :=
  ⟨⟨by decide, Nat.le_refl 1⟩,
    C5_recursion_roundtrip 2 1 7 "h" "f" (by decide) (Nat.le_refl 1)⟩

/-- C6: the claim says an EACCES (would-block) failure of the flock request
is retried after a 100 ms sleep, and any other error propagates unchanged.
The code does neither: since `EACCES` is an unbound name in lock.py, any
IOError with errno other than EAGAIN makes the except-clause condition
itself raise NameError. Evaluated at an EACCES failure: acquire_read aborts
after a single flock attempt (no retry) with NameError, not with the
original IOError, and the counter stays 0. -/
theorem C6_eacces_aborts_with_namerror :
    (acquire_read envAcces 5 42 "h" (initLock "f")).exc = some PyExc.nameError ∧
    (acquire_read envAcces 5 42 "h" (initLock "f")).calls = [OSCall.flockReq FlockOp.sh] ∧
    (acquire_read envAcces 5 42 "h" (initLock "f")).state = initLock "f" ∧
    (acquire_read envAcces 5 42 "h" (initLock "f")).exc ≠ some (PyExc.ioError EACCES) := by
  decide

/-- C7: release_read with reads == 0 and release_write with writes == 0
fail loudly with AssertionError, issue no OS-level request, and leave the
state (including the OS-lock mode) unchanged. -/
theorem C7_release_precondition (s1 s2 : LockSt) (h1 : s1.reads = 0) (h2 : s2.writes = 0) :
    release_read s1 = ⟨some PyExc.assertionError, s1, []⟩ ∧
    release_write s2 = ⟨some PyExc.assertionError, s2, []⟩ :=
  ⟨release_read_empty s1 h1, release_write_empty s2 h2⟩

/-- C7 witness: both failing releases evaluated on a fresh lock. -/
theorem C7_witness :
    ((initLock "f").reads = 0 ∧ (initLock "f").writes = 0) ∧
    (release_read (initLock "f") = ⟨some PyExc.assertionError, initLock "f", []⟩ ∧
      release_write (initLock "f") = ⟨some PyExc.assertionError, initLock "f", []⟩) :=
  ⟨⟨rfl, rfl⟩, C7_release_precondition (initLock "f") (initLock "f") rfl rfl⟩

/-- C8: a first exclusive acquisition (writes == 0, reads == 0, OS lock
unheld) that obtains the OS lock replaces the lock file content with
exactly the string `pid = <pid>, host = <host>` and issues a file write of
exactly that string; acquire_read never changes the file content and never
issues a file write. -/
theorem C8_stamp_on_exclusive_only (env : Nat → Option Nat) (timeout pid : Nat)
    (host : String) (s : LockSt) (hw : s.writes = 0) (hr : s.reads = 0)
    (hm : s.mode = OSMode.unheld) :
    ((acquire_write env timeout pid host s).state.mode = OSMode.exclusive →
      (acquire_write env timeout pid host s).state.content = stamp pid host ∧
        OSCall.fileWrite (stamp pid host) ∈ (acquire_write env timeout pid host s).calls) ∧
    (∀ (timeout2 : Nat) (s2 : LockSt),
      (acquire_read env timeout2 pid host s2).state.content = s2.content ∧
        ∀ str, OSCall.fileWrite str ∉ (acquire_read env timeout2 pid host s2).calls) := by
  constructor
  · intro hmode
    unfold acquire_write at hmode ⊢
    rw [if_pos hw, if_neg (by simp [hr])] at hmode ⊢
    cases hexc : (lockLoop FlockOp.ex pid host env s.content 0 timeout).exc with
    | some e =>
      simp only [hexc] at hmode
      have hmode2 : s.mode = OSMode.exclusive := hmode
      rw [hm] at hmode2
      exact OSMode.noConfusion hmode2
    | none =>
      cases hacq : (lockLoop FlockOp.ex pid host env s.content 0 timeout).acquired with
      | none =>
        simp only [hexc, hacq] at hmode
        have hmode2 : s.mode = OSMode.exclusive := hmode
        rw [hm] at hmode2
        exact OSMode.noConfusion hmode2
      | some mc =>
        obtain ⟨m, c2⟩ := mc
        have hq := lockLoop_ex_acquired pid host env s.content timeout 0 m c2 hacq
        simp only [hexc, hacq]
        exact ⟨hq.2.1, hq.2.2⟩
  · intro timeout2 s2
    exact acquire_read_content env timeout2 pid host s2

/-- C8 witness: the stamp property evaluated on a fresh lock with every OS
request granted. -/
theorem C8_witness :
    ((initLock "f").writes = 0 ∧ (initLock "f").reads = 0 ∧
      (initLock "f").mode = OSMode.unheld) ∧
    (((acquire_write envOk 1 7 "h" (initLock "f")).state.mode = OSMode.exclusive →
      (acquire_write envOk 1 7 "h" (initLock "f")).state.content = stamp 7 "h" ∧
        OSCall.fileWrite (stamp 7 "h") ∈ (acquire_write envOk 1 7 "h" (initLock "f")).calls) ∧
    (∀ (timeout2 : Nat) (s2 : LockSt),
      (acquire_read envOk timeout2 7 "h" s2).state.content = s2.content ∧
        ∀ str, OSCall.fileWrite str ∉ (acquire_read envOk timeout2 7 "h" s2).calls)) :=
  ⟨⟨rfl, rfl, rfl⟩, C8_stamp_on_exclusive_only envOk 1 7 "h" (initLock "f") rfl rfl rfl⟩

/-- C9: when every flock attempt within the budget fails EAGAIN (the OS
lock is never granted), acquire_read (resp. acquire_write) from a fresh
lock still returns normally with reads = 1 (resp. writes = 1) while the OS
lock is unheld, and the subsequent matching release issues flock(LOCK_UN)
— an unlock request for a lock the instance does not hold. -/
theorem C9_timeout_counts_without_lock (env : Nat → Option Nat) (timeout pid : Nat)
    (host c : String) (hbusy : ∀ i, i < timeout → env i = some EAGAIN) :
    ((acquire_read env timeout pid host (initLock c)).exc = none ∧
      (acquire_read env timeout pid host (initLock c)).state.reads = 1 ∧
      (acquire_read env timeout pid host (initLock c)).state.mode = OSMode.unheld ∧
      release_read (acquire_read env timeout pid host (initLock c)).state =
        ⟨none, initLock c, [OSCall.flockUn]⟩) ∧
    ((acquire_write env timeout pid host (initLock c)).exc = none ∧
      (acquire_write env timeout pid host (initLock c)).state.writes = 1 ∧
      (acquire_write env timeout pid host (initLock c)).state.mode = OSMode.unheld ∧
      release_write (acquire_write env timeout pid host (initLock c)).state =
        ⟨none, initLock c, [OSCall.flockUn]⟩) := by
  have har : acquire_read env timeout pid host (initLock c) =
      ⟨none, ⟨1, 0, OSMode.unheld, c⟩,
        List.replicate timeout (OSCall.flockReq FlockOp.sh)⟩ := by
    unfold acquire_read
    rw [if_pos ⟨rfl, rfl⟩,
      lockLoop_busy FlockOp.sh pid host env (initLock c).content timeout 0
        (by simpa using hbusy)]
    rfl
  have haw : acquire_write env timeout pid host (initLock c) =
      ⟨none, ⟨0, 1, OSMode.unheld, c⟩,
        List.replicate timeout (OSCall.flockReq FlockOp.ex)⟩ := by
    unfold acquire_write
    rw [lockLoop_busy FlockOp.ex pid host env (initLock c).content timeout 0
      (by simpa using hbusy)]
    rfl
  rw [har, haw]
  exact ⟨⟨rfl, rfl, rfl, release_read_last ⟨1, 0, OSMode.unheld, c⟩ ⟨rfl, rfl⟩⟩,
    ⟨rfl, rfl, rfl, release_write_last ⟨0, 1, OSMode.unheld, c⟩ ⟨rfl, rfl⟩⟩⟩

/-- C9 witness: the phantom acquisition evaluated on the fully contended
environment with a budget of three attempts. -/
theorem C9_witness :
    (∀ i, i < 3 → envBusy i = some EAGAIN) ∧
    (((acquire_read envBusy 3 7 "h" (initLock "f")).exc = none ∧
      (acquire_read envBusy 3 7 "h" (initLock "f")).state.reads = 1 ∧
      (acquire_read envBusy 3 7 "h" (initLock "f")).state.mode = OSMode.unheld ∧
      release_read (acquire_read envBusy 3 7 "h" (initLock "f")).state =
        ⟨none, initLock "f", [OSCall.flockUn]⟩) ∧
    ((acquire_write envBusy 3 7 "h" (initLock "f")).exc = none ∧
      (acquire_write envBusy 3 7 "h" (initLock "f")).state.writes = 1 ∧
      (acquire_write envBusy 3 7 "h" (initLock "f")).state.mode = OSMode.unheld ∧
      release_write (acquire_write envBusy 3 7 "h" (initLock "f")).state =
        ⟨none, initLock "f", [OSCall.flockUn]⟩)) :=
  ⟨fun _ _ => rfl,
    C9_timeout_counts_without_lock envBusy 3 7 "h" "f" (fun _ _ => rfl)⟩

/-- C10: the timeout used when read_lock, write_lock or the guard
constructors are invoked without an explicit timeout is DEFAULT_TIMEOUT =
60 seconds, the guards acquire with exactly that value, and 60 is not the
300 seconds (5 minutes) stated in the guards' docstrings. -/
theorem C10_default_timeout_is_60 :
    DEFAULT_TIMEOUT = 60 ∧
    readLockContextDefaultTimeout = DEFAULT_TIMEOUT ∧
    writeLockContextDefaultTimeout = DEFAULT_TIMEOUT ∧
    read_lock_default_timeout = DEFAULT_TIMEOUT ∧
    write_lock_default_timeout = DEFAULT_TIMEOUT ∧
    (∀ (env : Nat → Option Nat) (pid : Nat) (host : String) (s : LockSt),
      (read_lock read_lock_default_timeout).enter env pid host s =
        acquire_read env 60 pid host s ∧
      (write_lock write_lock_default_timeout).enter env pid host s =
        acquire_write env 60 pid host s) ∧
    DEFAULT_TIMEOUT ≠ 300 :=
  ⟨rfl, rfl, rfl, rfl, rfl, fun _ _ _ _ => ⟨rfl, rfl⟩, by decide⟩

end SpackLock
